import Mathlib

/-!
Verification of the GrimLog content-ingestion pipeline
(`scripts/youtube_transcribe.py`).

Each Python function relevant to the specified properties is shallowly
embedded as an executable Lean definition.  External effects (HTTP, the
filesystem, ffmpeg, the LLM endpoints, the SQL datastore) are passed in
explicitly as oracles or modelled as explicit state, following the
structure of the source.
-/

namespace GrimLog

abbrev Chars := List Char

/-! ### Model of the external strict JSON parser

The curation step parses LLM output with Python's `json.loads`.  That
parser is external to the repository; `jsonValid` models its acceptance
of a string as strict JSON (RFC 8259 grammar, the whitespace set used by
`json.loads`, strict control-character rejection inside strings).  It is
a fuel-based recursive-descent checker so that it evaluates by `decide`.
-/

def isJsonWS (c : Char) : Bool :=
  c = ' ' || c = '\t' || c = '\n' || c = '\r'

def skipWS (cs : Chars) : Chars := cs.dropWhile isJsonWS

def isDigitC (c : Char) : Bool := '0' ≤ c && c ≤ '9'

def isDigit19 (c : Char) : Bool := '1' ≤ c && c ≤ '9'

def isHexC (c : Char) : Bool :=
  isDigitC c || ('a' ≤ c && c ≤ 'f') || ('A' ≤ c && c ≤ 'F')

/-- Consume the integer/fraction/exponent tail of a JSON number
(everything after an optional leading minus sign). -/
def parseJNumTail (cs : Chars) : Option Chars :=
  let intRest : Option Chars :=
    match cs with
    | '0' :: r => some r
    | c :: r => if isDigit19 c then some (r.dropWhile isDigitC) else none
    | [] => none
  match intRest with
  | none => none
  | some r1 =>
    let fracRest : Option Chars :=
      match r1 with
      | '.' :: r2 =>
        match r2 with
        | c :: _ => if isDigitC c then some (r2.dropWhile isDigitC) else none
        | [] => none
      | _ => some r1
    match fracRest with
    | none => none
    | some r3 =>
      match r3 with
      | 'e' :: r4 | 'E' :: r4 =>
        let r5 := match r4 with
          | '+' :: r => r
          | '-' :: r => r
          | r => r
        match r5 with
        | c :: _ => if isDigitC c then some (r5.dropWhile isDigitC) else none
        | [] => none
      | _ => some r3

/-- Consume a JSON number, including an optional leading minus sign. -/
def parseJNumber (cs : Chars) : Option Chars :=
  match cs with
  | '-' :: r => parseJNumTail r
  | _ => parseJNumTail cs

/-- Parsing modes of the recursive-descent JSON checker. -/
inductive JMode
  | value      -- a JSON value
  | objRest    -- object body, just after the opening brace
  | objMore    -- object body, after one member
  | arrRest    -- array body, just after the opening bracket
  | arrMore    -- array body, after one element
  | strRest    -- string body, after the opening quote
deriving DecidableEq

/-- Fuel-based JSON recogniser: returns the unconsumed remainder on
success. -/
def parseJ : Nat → JMode → Chars → Option Chars
  | 0, _, _ => none
  | fuel + 1, JMode.value, cs =>
    match skipWS cs with
    | '\x7b' :: rest => parseJ fuel JMode.objRest rest
    | '[' :: rest => parseJ fuel JMode.arrRest rest
    | '"' :: rest => parseJ fuel JMode.strRest rest
    | 't' :: 'r' :: 'u' :: 'e' :: rest => some rest
    | 'f' :: 'a' :: 'l' :: 's' :: 'e' :: rest => some rest
    | 'n' :: 'u' :: 'l' :: 'l' :: rest => some rest
    | rest => parseJNumber rest
  | fuel + 1, JMode.objRest, cs =>
    match skipWS cs with
    | '\x7d' :: rest => some rest
    | '"' :: rest =>
      match parseJ fuel JMode.strRest rest with
      | none => none
      | some r2 =>
        match skipWS r2 with
        | ':' :: r3 =>
          match parseJ fuel JMode.value r3 with
          | none => none
          | some r4 => parseJ fuel JMode.objMore r4
        | _ => none
    | _ => none
  | fuel + 1, JMode.objMore, cs =>
    match skipWS cs with
    | '\x7d' :: rest => some rest
    | ',' :: rest =>
      match skipWS rest with
      | '"' :: r1 =>
        match parseJ fuel JMode.strRest r1 with
        | none => none
        | some r2 =>
          match skipWS r2 with
          | ':' :: r3 =>
            match parseJ fuel JMode.value r3 with
            | none => none
            | some r4 => parseJ fuel JMode.objMore r4
          | _ => none
      | _ => none
    | _ => none
  | fuel + 1, JMode.arrRest, cs =>
    match skipWS cs with
    | ']' :: rest => some rest
    | _ =>
      match parseJ fuel JMode.value cs with
      | none => none
      | some rest => parseJ fuel JMode.arrMore rest
  | fuel + 1, JMode.arrMore, cs =>
    match skipWS cs with
    | ']' :: rest => some rest
    | ',' :: rest =>
      match parseJ fuel JMode.value rest with
      | none => none
      | some r2 => parseJ fuel JMode.arrMore r2
    | _ => none
  | fuel + 1, JMode.strRest, cs =>
    match cs with
    | '"' :: rest => some rest
    | '\\' :: e :: rest =>
      if e = '"' || e = '\\' || e = '/' || e = 'b' || e = 'f' ||
          e = 'n' || e = 'r' || e = 't' then
        parseJ fuel JMode.strRest rest
      else if e = 'u' then
        match rest with
        | a :: b :: c :: d :: r2 =>
          if isHexC a && isHexC b && isHexC c && isHexC d then
            parseJ fuel JMode.strRest r2
          else none
        | _ => none
      else none
    | c :: rest => if 32 ≤ c.toNat then parseJ fuel JMode.strRest rest else none
    | [] => none

/-- `jsonValid s` holds exactly when the external strict parser accepts
`s` as a single JSON document (a successful `json.loads(s)`). -/
def jsonValid (s : String) : Bool :=
  match parseJ (2 * s.length + 4) JMode.value s.toList with
  | some rest => (skipWS rest).isEmpty
  | none => false

/-! ### String helpers mirroring the Python built-ins used by
`repair_truncated_json` -/

/-- Is `needle` an initial segment of `hay`? -/
def isInitialSeg : Chars → Chars → Bool
  | [], _ => true
  | _ :: _, [] => false
  | p :: ps, c :: cs => p = c && isInitialSeg ps cs

/-- Occurs-somewhere substring test; models Python's `needle in hay`. -/
def listContainsSub : Chars → Chars → Bool
  | needle, [] => isInitialSeg needle []
  | needle, c :: cs => isInitialSeg needle (c :: cs) || listContainsSub needle cs

def strContains (hay needle : String) : Bool :=
  listContainsSub needle.toList hay.toList

/-- Default whitespace stripped by Python's `str.rstrip()` (the ASCII
whitespace characters; none of them can be a closing brace, which is all
the development relies on). -/
def pyIsSpace (c : Char) : Bool :=
  c = ' ' || c = '\t' || c = '\n' || c = '\r' || c = '\x0b' || c = '\x0c'

/-- Python `s.rstrip()`. -/
def pyRstrip (s : String) : String :=
  String.mk (List.reverse (List.dropWhile pyIsSpace s.toList.reverse))

/-- Python `s.endswith(c)` for a single character `c`. -/
def lastCharIs (s : String) (c : Char) : Bool :=
  s.toList.getLast? = some c

/-- Python `s[:-1]`. -/
def dropLast1 (s : String) : String :=
  String.mk s.toList.dropLast

/-! ### `repair_truncated_json` (scripts/youtube_transcribe.py:537) -/

/-- State of the brace/quote scan inside `repair_truncated_json`:
current nesting depth, whether we are inside a quoted string, whether
the next character is escaped, and the offset of the last `\x7d` seen
closing a nested object. -/
structure ScanState where
  depth : Int
  inString : Bool
  escapeNext : Bool
  last : Option Nat
deriving DecidableEq

/-- One iteration of the scanning loop of `repair_truncated_json`, on
character `c` at offset `i`. -/
def scanStep (s : ScanState) (i : Nat) (c : Char) : ScanState :=
  if s.escapeNext then { s with escapeNext := false }
  else if c = '\\' then { s with escapeNext := true }
  else if c = '"' then { s with inString := !s.inString }
  else if s.inString then s
  else if c = '\x7b' then { s with depth := s.depth + 1 }
  else if c = '\x7d' then
    let d := s.depth - 1
    { s with depth := d, last := if 1 ≤ d then some i else s.last }
  else s

def scanFrom : ScanState → Nat → Chars → ScanState
  | s, _, [] => s
  | s, i, c :: cs => scanFrom (scanStep s i c) (i + 1) cs

/-- Offset of the last `\x7d` closing an object nested inside the
top-level object (`last_complete_brace` in the source; `none` models the
sentinel `-1`). -/
def last_complete_brace (text : String) : Option Nat :=
  (scanFrom ⟨0, false, false, none⟩ 0 text.toList).last

def mentionedUnitsMarker : String := "\"mentionedUnits\""

def closingFragment : String := "], \"unmatchedMentions\": []\x7d"

/-- Embedding of `repair_truncated_json`: guard on the
`"mentionedUnits"` marker, scan for the last nested closing brace,
truncate there, right-strip, drop a trailing comma, append the closing
fragment. -/
def repair_truncated_json (text : String) : Option String :=
  if strContains text mentionedUnitsMarker then
    match last_complete_brace text with
    | none => none
    | some i =>
      let repaired := String.mk (text.toList.take (i + 1))
      if lastCharIs (pyRstrip repaired) '\x7d' then
        let r0 := pyRstrip repaired
        let r1 := if lastCharIs r0 ',' then dropLast1 r0 else r0
        some (r1 ++ closingFragment)
      else some repaired
  else none

/-- The repair procedure as the specification words it: truncate at the
offset of the last nested closing brace, strip a trailing comma if
present, append the closing fragment; `none` when no nested closing
brace was found. -/
def claimedRepair (text : String) : Option String :=
  match last_complete_brace text with
  | none => none
  | some i =>
    let t0 := String.mk (text.toList.take (i + 1))
    let t1 := if lastCharIs t0 ',' then dropLast1 t0 else t0
    some (t1 ++ closingFragment)

/-- The truncation-tolerant decoding step of `curate_pending_sources`
(scripts/youtube_transcribe.py:2693): strict parse first; on failure
repair and re-parse; if repair or the re-parse fails, the original
parse error propagates. `parse` abstracts the external strict JSON
parser. -/
def tolerantDecode {α : Type} (parse : String → Except String α) (text : String) :
    Except String α :=
  match parse text with
  | Except.ok v => Except.ok v
  | Except.error e =>
    match repair_truncated_json text with
    | some repaired =>
      match parse repaired with
      | Except.ok v => Except.ok v
      | Except.error _ => Except.error e
    | none => Except.error e

/-! ### `requests_with_retry` (scripts/youtube_transcribe.py:101)

The HTTP layer (`requests.request`) is external; it is abstracted as an
oracle from the attempt number to its outcome.  The embedding returns
the list of back-off sleeps performed (in seconds) together with the
final result, so the retry schedule itself is provable. -/

/-- Outcome of one `requests.request` call: a response with some HTTP
status code, or a connection-level exception. -/
inductive ReqOutcome
  | response (status : Nat)
  | connError (msg : String)
deriving DecidableEq

/-- Result of `requests_with_retry`: a returned response, a re-raised
connection error, or the implicit `None` fall-through when
`max_retries` is zero and the loop body never runs. -/
inductive RetryResult
  | ok (status : Nat)
  | raised (msg : String)
  | fellThrough
deriving DecidableEq

/-- The retry loop: `attempt` is the current zero-based attempt index,
`remaining` the number of loop iterations left
(`max_retries - attempt`).  On a connection error before the final
attempt it sleeps `2 ^ attempt` seconds and retries; on the final
attempt it re-raises. -/
def retryAux (oracle : Nat → ReqOutcome) (maxRetries : Nat) :
    Nat → Nat → List Nat × RetryResult
  | _, 0 => ([], RetryResult.fellThrough)
  | attempt, remaining + 1 =>
    match oracle attempt with
    | ReqOutcome.response s => ([], RetryResult.ok s)
    | ReqOutcome.connError m =>
      if attempt < maxRetries - 1 then
        let rest := retryAux oracle maxRetries (attempt + 1) remaining
        (2 ^ attempt :: rest.1, rest.2)
      else ([], RetryResult.raised m)

def requests_with_retry (oracle : Nat → ReqOutcome) (maxRetries : Nat) :
    List Nat × RetryResult :=
  retryAux oracle maxRetries 0 maxRetries

/-! ### Audio chunking and transcription
(`split_audio_into_chunks`, `compress_audio_chunk`,
`whisper_transcribe`, scripts/youtube_transcribe.py:741-846)

ffmpeg/ffprobe, the filesystem and the Whisper endpoint are external:
the duration probe is an `Option ℚ` (`none` models a raised probe
error), chunk-file creation success is a predicate `keep` on the chunk
index (the `os.path.exists ∧ getsize > 1000` check), and per-file
transcription is an oracle returning `Except`.  File sizes are in
bytes; Python's `size / (1024*1024) ≤ threshold` float comparisons are
exact for sizes below 2^53 and are embedded as integer comparisons. -/

/-- Python `int(q)`: truncation toward zero. -/
def pyInt (q : ℚ) : Int :=
  if q < 0 then -⌊-q⌋ else ⌊q⌋

/-- An audio file handled by `whisper_transcribe`: the original
download, or the chunk starting at `i * chunk_duration` seconds. -/
inductive AudioRef
  | original
  | chunk (i : Nat)
deriving DecidableEq

/-- `split_audio_into_chunks` with the default 600 s chunk duration:
`num_chunks = int(duration / 600) + 1`; a single chunk means no split;
otherwise one ffmpeg cut per index, keeping the chunk files that exist
with size over 1000 bytes (`keep`). -/
def split_audio_into_chunks (duration : ℚ) (keep : Nat → Bool) : List AudioRef :=
  let numChunks := (pyInt (duration / 600)).toNat + 1
  if numChunks = 1 then [AudioRef.original]
  else (List.filter keep (List.range numChunks)).map AudioRef.chunk

/-- The placeholder inserted for a failed segment, with the 1-based
segment number. -/
def failedSegmentMarker (n : Nat) : String :=
  "[Transcription failed for segment " ++ toString n ++ "]"

/-- Per-chunk texts assembled by the chunked branch of
`whisper_transcribe`: transcript on success, placeholder marker on a
caught exception. -/
def segmentParts (oracle : AudioRef → Except String String)
    (chunks : List AudioRef) : List String :=
  chunks.enum.map fun p =>
    match oracle p.2 with
    | Except.ok t => t
    | Except.error _ => failedSegmentMarker (p.1 + 1)

/-- `compress_audio_chunk` returns the input unchanged at or below the
24 MB ceiling (`24 * 1024 * 1024` bytes); above it, re-encodes mono at
`int((24.0 * 8 * 1024 * 0.9) / duration)` kbps clamped to [32, 128]. -/
inductive CompressResult
  | unchanged
  | reencoded (kbps : Int) (mono : Bool)
deriving DecidableEq

def compress_audio_chunk (sizeBytes : Nat) (duration : ℚ) : CompressResult :=
  if sizeBytes ≤ 24 * 1024 * 1024 then CompressResult.unchanged
  else
    let target : Int := pyInt ((24 * 8 * 1024 * (9 / 10 : ℚ)) / duration)
    CompressResult.reencoded (max 32 (min target 128)) true

/-- `whisper_transcribe`: chunk when the file exceeds 20 MB or runs
longer than 900 s (size-only test when the duration probe raised); in
the chunked branch every per-chunk exception is caught and replaced by
a placeholder, so that branch always succeeds.  A failed probe raises
again inside `split_audio_into_chunks` and propagates. -/
def whisper_transcribe (apiKeySet : Bool) (sizeBytes : Nat) (probe : Option ℚ)
    (keep : Nat → Bool) (oracle : AudioRef → Except String String) :
    Except String String :=
  if apiKeySet = false then Except.error "OPENAI_API_KEY is not set in .env.local"
  else
    let sizeOver : Bool := decide (20 * 1024 * 1024 < sizeBytes)
    let needsChunking : Bool :=
      match probe with
      | some d => sizeOver || decide ((900 : ℚ) < d)
      | none => sizeOver
    if needsChunking then
      match probe with
      | none => Except.error "ffprobe failed"
      | some d =>
        Except.ok (String.intercalate "\n\n"
          (segmentParts oracle (split_audio_into_chunks d keep)))
    else oracle AudioRef.original

/-! ### Per-link extraction step (`extract_pending_links`,
scripts/youtube_transcribe.py:2835; writes through
`db_update_datasheet_source_extraction`, line 281) -/

/-- The fields of an `extract_unit_context` result that the per-link
branch inspects: its `success` and `found` flags and the confidence
taken from the extracted context (already defaulted to 50). -/
structure ExtractOutcome where
  success : Bool
  found : Bool
  confidence : Nat
deriving DecidableEq

/-- The `extractedContext` JSON persisted on the link: the full result
when the unit was found, or the `\x7b"found": false\x7d` stub. -/
inductive StoredContext
  | full (r : ExtractOutcome)
  | notFound
deriving DecidableEq

/-- The UPDATE issued by `db_update_datasheet_source_extraction`. -/
structure LinkUpdate where
  context : StoredContext
  confidence : Nat
  status : String
deriving DecidableEq

/-- Processing of one pending DatasheetSource link inside the loop of
`extract_pending_links`: a raised exception is caught and performs no
write (`none`); a completed extraction always writes status
`extracted`, with the not-found stub and confidence 0 when the unit was
not found (or the extraction reported failure). -/
def process_pending_link (r : Except String ExtractOutcome) : Option LinkUpdate :=
  match r with
  | Except.error _ => none
  | Except.ok res =>
    if res.success && res.found then
      some ⟨StoredContext.full res, res.confidence, "extracted"⟩
    else
      some ⟨StoredContext.notFound, 0, "extracted"⟩

/-! ### `db_create_datasheet_links` (scripts/youtube_transcribe.py:238)

The DatasheetSource table is modelled as a list of rows; the
`INSERT ... ON CONFLICT ("datasheetId", "competitiveSourceId") DO
UPDATE` statement as an upsert keyed by (datasheetId, sourceId) with
PostgreSQL semantics: on conflict only relevanceScore, mentionCount and
mentionSummary are overwritten (status is kept), otherwise a fresh row
with status `pending` is appended. -/

structure LinkRow where
  datasheetId : String
  sourceId : String
  relevanceScore : ℚ
  mentionCount : Nat
  mentionSummary : String
  status : String
deriving DecidableEq

/-- One link tuple passed by curation (defaults already applied:
relevanceScore 0.5, mentionCount 1, summary ""). -/
structure LinkInput where
  datasheetId : String
  relevanceScore : ℚ
  mentionCount : Nat
  mentionSummary : String
deriving DecidableEq

def keyOf (r : LinkRow) : String × String := (r.datasheetId, r.sourceId)

def linkMatches (did sid : String) (r : LinkRow) : Bool :=
  r.datasheetId = did && r.sourceId = sid

/-- One `INSERT ... ON CONFLICT DO UPDATE` execution. -/
def upsertLink (sourceId : String) (db : List LinkRow) (l : LinkInput) :
    List LinkRow :=
  if db.any (linkMatches l.datasheetId sourceId) then
    db.map fun r =>
      if linkMatches l.datasheetId sourceId r then
        { r with
          relevanceScore := l.relevanceScore
          mentionCount := l.mentionCount
          mentionSummary := l.mentionSummary }
      else r
  else
    db ++ [⟨l.datasheetId, sourceId, l.relevanceScore, l.mentionCount,
            l.mentionSummary, "pending"⟩]

/-- `db_create_datasheet_links`: one upsert per link, in order. -/
def db_create_datasheet_links (sourceId : String) (links : List LinkInput)
    (db : List LinkRow) : List LinkRow :=
  links.foldl (upsertLink sourceId) db

/-! ### `aggregate_datasheet_context` (scripts/youtube_transcribe.py:2175)
and `db_upsert_datasheet_competitive_context` (line 333)

Only the control flow around the datastore writes is needed: inputs are
the configuration/lookup outcomes, the fetched source rows, the
synthesis-call outcome, and whether the final upsert raises.  The
output is the process exit code paired with the list of
DatasheetCompetitiveContext writes performed. -/

/-- A row returned by `db_get_datasheet_sources_for_aggregation`
(already filtered to status `extracted` and not outdated). -/
structure AggSourceRow where
  confidence : Nat
deriving DecidableEq

/-- One write to the DatasheetCompetitiveContext table, keyed by
(datasheet, faction-or-null, detachment-or-null), recording the number
of sources used. -/
structure AggWrite where
  datasheetId : String
  factionId : Option String
  detachmentId : Option String
  sourceCount : Nat
deriving DecidableEq

structure AggInputs where
  /-- GOOGLE_API_KEY present. -/
  apiKeySet : Bool
  /-- A datasheet id was supplied or resolved from the name. -/
  datasheetId : Option String
  /-- Result of the initial source query (`Except` models a raised
  database error). -/
  fetchSources : Except String (List AggSourceRow)
  /-- The datasheet row looked up in the same try block. -/
  datasheetFound : Bool
  /-- Outcome of the Gemini synthesis call: `none` collapses every
  handled failure (HTTP status, empty candidates, empty text, parse
  error), which all return exit code 1. -/
  llmResult : Option Unit
  /-- Whether the final upsert raises (a raised upsert is caught and the
  result saved to a local file instead). -/
  upsertOk : Bool

def aggregate_datasheet_context (inp : AggInputs) : Nat × List AggWrite :=
  if inp.apiKeySet = false then (1, [])
  else
    match inp.datasheetId with
    | none => (1, [])
    | some did =>
      match inp.fetchSources with
      | Except.error _ => (1, [])
      | Except.ok sources =>
        if inp.datasheetFound = false then (1, [])
        else if sources.isEmpty then (0, [])
        else
          match inp.llmResult with
          | none => (1, [])
          | some _ =>
            if inp.upsertOk then
              (0, [⟨did, none, none, sources.length⟩])
            else (0, [])

/-! ### Pipeline CLI exit codes
(`fetch_pending_sources` :2407, `curate_pending_sources` :2520,
`extract_pending_links` :2778, `process_all_pipeline` :2877)

Each phase is embedded down to its exit code.  `records` lists the
per-record success flags of the phase loop; every per-record exception
is caught inside the loop, so the flags never influence the exit
code. -/

def fetch_pending_sources_exit (dbQuery : Except String (List Bool)) : Nat :=
  match dbQuery with
  | Except.error _ => 1
  | Except.ok _records => 0

def curate_pending_sources_exit (apiKeySet : Bool)
    (dbQuery : Except String (List Bool)) : Nat :=
  if apiKeySet = false then 1
  else
    match dbQuery with
    | Except.error _ => 1
    | Except.ok _records => 0

def extract_pending_links_exit (apiKeySet : Bool)
    (dbQuery : Except String (List Bool)) : Nat :=
  if apiKeySet = false then 1
  else
    match dbQuery with
    | Except.error _ => 1
    | Except.ok _records => 0

/-- `process_all_pipeline` runs fetch, curate and extract in sequence;
a non-zero result from a phase only prints a warning
("... had issues, continuing...") and the function unconditionally
returns 0. -/
def process_all_pipeline (fetchExit curateExit extractExit : Nat) : Nat :=
  let _warnFetch := fetchExit ≠ 0
  let _warnCurate := curateExit ≠ 0
  let _warnExtract := extractExit ≠ 0
  0

/-! ## Theorems -/

/-- Claim C10: for every input string that does not contain the literal
substring `"mentionedUnits"` (quotes included), `repair_truncated_json`
returns no repaired text: the repair is specialised to responses with а
`mentionedUnits` array and refuses all other truncated JSON. -/
theorem C10_repair_requires_marker (text : String)
    (h : strContains text mentionedUnitsMarker = false) :
    repair_truncated_json text = none := by
  simp [repair_truncated_json, h]

/-- Witness for C10 at a truncated input that holds a structurally
recoverable nested object but no `mentionedUnits` marker. -/
theorem C10_repair_requires_marker_witness :
    strContains "\x7b\"units\": [\x7b\"x\": 2\x7d," mentionedUnitsMarker = false ∧
    repair_truncated_json "\x7b\"units\": [\x7b\"x\": 2\x7d," = none ∧
    last_complete_brace "\x7b\"units\": [\x7b\"x\": 2\x7d," ≠ none :=
  ⟨by decide, C10_repair_requires_marker _ (by decide), by decide⟩

/-- Claim C2: on every input the strict parser accepts, the
truncation-tolerant decoding step used during curation returns exactly
the strict parser's result — strict parse is attempted first and repair
only after a strict-parse failure. -/
theorem C2_strict_parse_refinement {α : Type} (parse : String → Except String α)
    (text : String) (v : α) (h : parse text = Except.ok v) :
    tolerantDecode parse text = Except.ok v := by
  unfold tolerantDecode
  rw [h]

/-- Witness for C2: a strict parser built on the JSON model accepts
`\x7b\x7d` and the tolerant decoder returns its result unchanged. -/
theorem C2_strict_parse_refinement_witness :
    tolerantDecode
      (fun s => if jsonValid s then Except.ok s else Except.error "invalid")
      "\x7b\x7d" = Except.ok "\x7b\x7d" :=
  C2_strict_parse_refinement _ "\x7b\x7d" "\x7b\x7d" (by rfl)

/-- Claim C5: a pending DatasheetSource link whose extraction completes
always ends in status `extracted`; when the extraction reports the unit
not found it is persisted as extracted with the not-found stub and
confidence 0 — a terminal state, not an error. -/
theorem C5_extraction_terminal_status (res : ExtractOutcome) :
    ∃ u : LinkUpdate,
      process_pending_link (Except.ok res) = some u ∧
      u.status = "extracted" ∧
      (res.found = false → u = ⟨StoredContext.notFound, 0, "extracted"⟩) := by
  unfold process_pending_link
  cases hb : res.success && res.found with
  | true =>
    refine ⟨⟨StoredContext.full res, res.confidence, "extracted"⟩, by simp [hb], rfl, ?_⟩
    intro hf
    rw [hf] at hb
    simp at hb
  | false =>
    exact ⟨⟨StoredContext.notFound, 0, "extracted"⟩, by simp [hb], rfl, fun _ => rfl⟩

/-- Witness for C5 at an extraction that reports the unit not
discussed. -/
theorem C5_extraction_terminal_status_witness :
    process_pending_link (Except.ok ⟨true, false, 77⟩) =
      some ⟨StoredContext.notFound, 0, "extracted"⟩ := by
  obtain ⟨u, h1, _h2, h3⟩ := C5_extraction_terminal_status ⟨true, false, 77⟩
  rw [h1, h3 rfl]

/-- Claim C7: aggregation over an empty set of valid sources performs no
database write and exits successfully (code 0). -/
theorem C7_empty_aggregation_noop (inp : AggInputs) (did : String)
    (hk : inp.apiKeySet = true) (hid : inp.datasheetId = some did)
    (hq : inp.fetchSources = Except.ok []) (hds : inp.datasheetFound = true) :
    aggregate_datasheet_context inp = (0, []) := by
  unfold aggregate_datasheet_context
  rw [hk, hid, hq, hds]
  simp

/-- Witness for C7 at a concrete input state with no valid sources. -/
theorem C7_empty_aggregation_noop_witness :
    aggregate_datasheet_context ⟨true, some "ds1", Except.ok [], true, none, true⟩ =
      (0, []) :=
  C7_empty_aggregation_noop _ "ds1" rfl rfl rfl rfl

/-- Claim C8: `compress_audio_chunk` leaves a file at or below 24 MB
unchanged; above that it re-encodes to mono at
`(24 * 8 * 1024 * 0.9) / duration` kbps clamped to [32, 128], which is
the ceiling-bytes form `(ceiling_bytes * 8 * 0.9) / duration / 1024`. -/
theorem C8_compression_bitrate (sizeBytes : Nat) (d : ℚ) (hd : 0 < d) :
    (sizeBytes ≤ 25165824 → compress_audio_chunk sizeBytes d = CompressResult.unchanged) ∧
    (25165824 < sizeBytes →
      compress_audio_chunk sizeBytes d =
        CompressResult.reencoded
          (max 32 (min ⌊(24 * 8 * 1024 * (9 / 10 : ℚ)) / d⌋ 128)) true ∧
      (24 * 8 * 1024 * (9 / 10 : ℚ)) / d = (25165824 * 8 * (9 / 10 : ℚ)) / d / 1024 ∧
      32 ≤ max 32 (min ⌊(24 * 8 * 1024 * (9 / 10 : ℚ)) / d⌋ 128) ∧
      max 32 (min ⌊(24 * 8 * 1024 * (9 / 10 : ℚ)) / d⌋ 128) ≤ 128) := by
  constructor
  · intro h
    have h' : sizeBytes ≤ 24 * 1024 * 1024 := by omega
    unfold compress_audio_chunk
    rw [if_pos h']
  · intro h
    have h' : ¬ sizeBytes ≤ 24 * 1024 * 1024 := by omega
    have hq : (0 : ℚ) < (24 * 8 * 1024 * (9 / 10 : ℚ)) / d :=
      div_pos (by norm_num) hd
    refine ⟨?_, ?_, le_max_left _ _, max_le (by norm_num) (min_le_right _ _)⟩
    · unfold compress_audio_chunk
      rw [if_neg h']
      simp [pyInt, not_lt.mpr (le_of_lt hq)]
    · have hdne : d ≠ 0 := ne_of_gt hd
      field_simp
      ring

/-- Witness for C8: a 35 MB, 600 s chunk is re-encoded at the clamped
128 kbps; a 1 MB chunk is left unchanged. -/
theorem C8_compression_bitrate_witness :
    compress_audio_chunk 36700160 600 = CompressResult.reencoded 128 true ∧
    compress_audio_chunk 1000000 600 = CompressResult.unchanged := by
  constructor
  · have h := (C8_compression_bitrate 36700160 600 (by norm_num)).2 (by norm_num)
    have hf : ⌊(24 * 8 * 1024 * (9 / 10 : ℚ)) / 600⌋ = (294 : Int) := by norm_num
    rw [h.1, hf]
    decide
  · exact (C8_compression_bitrate 1000000 600 (by norm_num)).1 (by norm_num)

/-- Counterexample to claim C3 as stated: on persistent connection
failure the retry wrapper performs exactly the back-off waits 1 s and
2 s (three attempts in total) — never the claimed 1 s, 2 s, 4 s
schedule. -/
theorem C3_backoff_counterexample :
    (requests_with_retry (fun _ => ReqOutcome.connError "refused") 3).1 = [1, 2] ∧
    (requests_with_retry (fun _ => ReqOutcome.connError "refused") 3).1 ≠ [1, 2, 4] :=
  ⟨rfl, by decide⟩

/-- Claim C3 (amended): with the default `max_retries = 3`, a
connection-level failure is retried up to 2 further times (3 attempts
in total) with waits of 1 s then 2 s, after which the last failure
propagates; a response carrying any HTTP status — error statuses
included — is returned immediately without retry. -/
theorem C3_retry_policy_amended (oracle : Nat → ReqOutcome) :
    (∀ m0 m1 m2,
      oracle 0 = ReqOutcome.connError m0 →
      oracle 1 = ReqOutcome.connError m1 →
      oracle 2 = ReqOutcome.connError m2 →
      requests_with_retry oracle 3 = ([1, 2], RetryResult.raised m2)) ∧
    (∀ s, oracle 0 = ReqOutcome.response s →
      requests_with_retry oracle 3 = ([], RetryResult.ok s)) := by
  constructor
  · intro m0 m1 m2 h0 h1 h2
    simp [requests_with_retry, retryAux, h0, h1, h2]
  · intro s h0
    simp [requests_with_retry, retryAux, h0]

/-- Witness for C3 (amended): a persistently refused connection raises
after sleeps [1, 2]; an immediate HTTP 500 response is returned with no
retry. -/
theorem C3_retry_policy_amended_witness :
    requests_with_retry (fun _ => ReqOutcome.connError "refused") 3 =
      ([1, 2], RetryResult.raised "refused") ∧
    requests_with_retry (fun _ => ReqOutcome.response 500) 3 =
      ([], RetryResult.ok 500) :=
  ⟨(C3_retry_policy_amended _).1 "refused" "refused" "refused" rfl rfl rfl,
   (C3_retry_policy_amended _).2 500 rfl⟩

/-- Counterexample to claim C9 as stated: when the curate phase aborts
with a configuration error (missing GOOGLE_API_KEY, exit 1), the
run-all-phases driver still exits 0. -/
theorem C9_process_all_counterexample :
    curate_pending_sources_exit false (Except.ok []) = 1 ∧
    process_all_pipeline 0 (curate_pending_sources_exit false (Except.ok [])) 0 = 0 :=
  ⟨rfl, rfl⟩

/-- Claim C9 (amended): the individual phase commands exit 0 on success
(regardless of per-record failures, which are caught inside the loop)
and non-zero on a configuration error or a failed initial database
query; the run-all-phases driver, however, unconditionally exits 0 even
when a phase reported a top-level error. -/
theorem C9_exit_codes_amended :
    (∀ records, fetch_pending_sources_exit (Except.ok records) = 0) ∧
    (∀ e, fetch_pending_sources_exit (Except.error e) = 1) ∧
    (∀ records, curate_pending_sources_exit true (Except.ok records) = 0) ∧
    (∀ q, curate_pending_sources_exit false q = 1) ∧
    (∀ e, curate_pending_sources_exit true (Except.error e) = 1) ∧
    (∀ records, extract_pending_links_exit true (Except.ok records) = 0) ∧
    (∀ q, extract_pending_links_exit false q = 1) ∧
    (∀ e, extract_pending_links_exit true (Except.error e) = 1) ∧
    (∀ did srcs upsertOk,
      (aggregate_datasheet_context
        ⟨true, some did, Except.ok srcs, true, some (), upsertOk⟩).1 = 0) ∧
    (∀ q ds l u, (aggregate_datasheet_context ⟨false, q, ds, l, u, true⟩).1 = 1) ∧
    (∀ f c e, process_all_pipeline f c e = 0) := by
  refine ⟨fun _ => rfl, fun _ => rfl, fun _ => rfl, fun _ => rfl, fun _ => rfl,
    fun _ => rfl, fun _ => rfl, fun _ => rfl, ?_, fun _ _ _ _ => rfl, fun _ _ _ => rfl⟩
  intro did srcs upsertOk
  unfold aggregate_datasheet_context
  cases srcs <;> cases upsertOk <;> simp

/-! ### Scanner lemmas for the JSON repair -/

/-- `scanStep` only ever records the offset of a closing brace: a
recorded offset is either inherited or the current position of a
`\x7d`. -/
theorem scanStep_last (s : ScanState) (i : Nat) (c : Char) (j : Nat)
    (h : (scanStep s i c).last = some j) :
    s.last = some j ∨ (c = '\x7d' ∧ j = i) := by
  unfold scanStep at h
  split_ifs at h with h1 h2 h3 h4 h5 h6
  · exact Or.inl h
  · exact Or.inl h
  · exact Or.inl h
  · exact Or.inl h
  · exact Or.inl h
  · simp only at h
    split_ifs at h with h7
    · exact Or.inr ⟨h6, (Option.some_inj.mp h).symm⟩
    · exact Or.inl h
  · exact Or.inl h

/-- Any offset recorded by the scan is the position of a `\x7d` in the
scanned suffix (positions counted from `i0`). -/
theorem scanFrom_last (cs : Chars) : ∀ (s : ScanState) (i0 j : Nat),
    (scanFrom s i0 cs).last = some j →
    s.last = some j ∨ ∃ k, cs[k]? = some '\x7d' ∧ j = i0 + k := by
  induction cs with
  | nil => intro s i0 j h; exact Or.inl h
  | cons c cs ih =>
    intro s i0 j h
    rcases ih (scanStep s i0 c) (i0 + 1) j h with h1 | ⟨k, hk, hj⟩
    · rcases scanStep_last s i0 c j h1 with h2 | ⟨hc, hj⟩
      · exact Or.inl h2
      · exact Or.inr ⟨0, by simp [hc], by omega⟩
    · exact Or.inr ⟨k + 1, by simpa using hk, by omega⟩

/-- The offset returned by `last_complete_brace` points at a `\x7d` of
the text. -/
theorem last_complete_brace_mem (text : String) (i : Nat)
    (h : last_complete_brace text = some i) :
    text.toList[i]? = some '\x7d' := by
  unfold last_complete_brace at h
  rcases scanFrom_last text.toList ⟨0, false, false, none⟩ 0 i h with h1 | ⟨k, hk, hj⟩
  · simp at h1
  · rw [hj]
    simpa using hk

/-- Truncating just after position `i` makes the character at `i` the
last one. -/
theorem getLast?_take_of_getElem (l : Chars) (i : Nat) (c : Char)
    (h : l[i]? = some c) : (l.take (i + 1)).getLast? = some c := by
  have hlen : i < l.length := by
    by_contra hge
    rw [List.getElem?_eq_none (by omega)] at h
    exact Option.noConfusion h
  have htake : (l.take (i + 1)).length = i + 1 := by
    simp [List.length_take]
    omega
  rw [List.getLast?_eq_getElem?, htake]
  simpa [List.getElem?_take_of_lt (Nat.lt_succ_self i)] using h

/-- `str.rstrip()` is the identity on a string whose last character is
not whitespace. -/
theorem pyRstrip_id (l : Chars) (c : Char) (hlast : l.getLast? = some c)
    (hc : pyIsSpace c = false) : pyRstrip (String.mk l) = String.mk l := by
  unfold pyRstrip
  have hrev : l.reverse.head? = some c := by rw [List.head?_reverse]; exact hlast
  cases hl : l.reverse with
  | nil => rw [hl] at hrev; exact Option.noConfusion hrev
  | cons a t =>
    rw [hl] at hrev
    have hac : a = c := Option.some_inj.mp hrev
    rw [hac] at hl
    have htl : (String.mk l).toList = l := rfl
    rw [htl, hl, List.dropWhile_cons, hc]
    simp only [Bool.false_eq_true, if_false]
    rw [← hl, List.reverse_reverse]

/-- With the `mentionedUnits` marker present, `repair_truncated_json`
performs exactly the repair the specification describes: truncate at
the last nested closing brace, strip a trailing comma if present (never
present, since the truncated text ends in `\x7d`), and append the
closing fragment; `none` when no nested closing brace exists. -/
theorem repair_eq_claimed (text : String)
    (hm : strContains text mentionedUnitsMarker = true) :
    repair_truncated_json text = claimedRepair text := by
  unfold repair_truncated_json claimedRepair
  rw [hm]
  simp only [if_true]
  cases hlb : last_complete_brace text with
  | none => rfl
  | some i =>
    have hmem : text.data[i]? = some '\x7d' := last_complete_brace_mem text i hlb
    have hlast : (List.take (i + 1) text.data).getLast? = some '\x7d' :=
      getLast?_take_of_getElem _ _ _ hmem
    have hrs : pyRstrip (String.mk (List.take (i + 1) text.data)) =
        String.mk (List.take (i + 1) text.data) :=
      pyRstrip_id _ _ hlast (by decide)
    have htl : (String.mk (List.take (i + 1) text.data)).toList =
        List.take (i + 1) text.data := rfl
    have hbrace : lastCharIs (String.mk (List.take (i + 1) text.data)) '\x7d' = true := by
      simp [lastCharIs, htl, hlast]
    have hcomma : lastCharIs (String.mk (List.take (i + 1) text.data)) ',' = false := by
      simp [lastCharIs, htl, hlast]
    simp [hrs, hbrace, hcomma]

/-- Counterexample to claim C1 as stated: a truncated response without
a `mentionedUnits` array is refused (`none`) even though it fails
strict parsing and contains a nested closing brace at which the claimed
truncate-and-close repair would succeed. -/
theorem C1_repair_counterexample :
    jsonValid "\x7b\"a\": \x7b\"b\": 1\x7d," = false ∧
    repair_truncated_json "\x7b\"a\": \x7b\"b\": 1\x7d," = none ∧
    claimedRepair "\x7b\"a\": \x7b\"b\": 1\x7d," =
      some "\x7b\"a\": \x7b\"b\": 1\x7d], \"unmatchedMentions\": []\x7d" :=
  ⟨by decide, by decide, by decide⟩

/-- Claim C1 (amended): for every raw response text that contains the
literal substring `"mentionedUnits"` and fails strict JSON parsing,
`repair_truncated_json` truncates at the offset of the last `\x7d`
closing an object nested inside the top-level object (scanning with
string/escape awareness), strips a trailing comma if present, and
appends the closing fragment; if no such nested closing brace was
found it returns `none` and the original parse error propagates
through the decode step. -/
theorem C1_repair_behavior_amended (text : String)
    (hm : strContains text mentionedUnitsMarker = true)
    (_hp : jsonValid text = false) :
    repair_truncated_json text = claimedRepair text ∧
    (repair_truncated_json text = none →
      ∀ (α : Type) (parse : String → Except String α) (e : String),
        parse text = Except.error e → tolerantDecode parse text = Except.error e) := by
  refine ⟨repair_eq_claimed text hm, ?_⟩
  intro hnone α parse e hpe
  unfold tolerantDecode
  rw [hpe, hnone]

/-- Witness for C1 (amended) at a response truncated inside the second
array entry. -/
theorem C1_repair_behavior_amended_witness :
    strContains "\x7b\"mentionedUnits\": [\x7b\"a\": 1\x7d," mentionedUnitsMarker = true ∧
    jsonValid "\x7b\"mentionedUnits\": [\x7b\"a\": 1\x7d," = false ∧
    repair_truncated_json "\x7b\"mentionedUnits\": [\x7b\"a\": 1\x7d," =
      claimedRepair "\x7b\"mentionedUnits\": [\x7b\"a\": 1\x7d," :=
  ⟨by decide, by decide,
   (C1_repair_behavior_amended "\x7b\"mentionedUnits\": [\x7b\"a\": 1\x7d,"
      (by decide) (by decide)).1⟩

/-! ### Chunked transcription lemmas -/

theorem segmentParts_length (oracle : AudioRef → Except String String)
    (chunks : List AudioRef) :
    (segmentParts oracle chunks).length = chunks.length := by
  simp [segmentParts]

/-- A successfully transcribed chunk contributes its transcript at its
own position. -/
theorem segmentParts_get_ok (oracle : AudioRef → Except String String)
    (chunks : List AudioRef) (k : Nat) (c : AudioRef) (t : String)
    (hc : chunks[k]? = some c) (ht : oracle c = Except.ok t) :
    (segmentParts oracle chunks)[k]? = some t := by
  simp [segmentParts, List.getElem?_map, List.getElem?_enum, hc, ht]

/-- A failed chunk contributes the placeholder marker (with its 1-based
position) at its own position. -/
theorem segmentParts_get_err (oracle : AudioRef → Except String String)
    (chunks : List AudioRef) (k : Nat) (c : AudioRef) (e : String)
    (hc : chunks[k]? = some c) (he : oracle c = Except.error e) :
    (segmentParts oracle chunks)[k]? = some (failedSegmentMarker (k + 1)) := by
  simp [segmentParts, List.getElem?_map, List.getElem?_enum, hc, he]

/-- Claim C4: when the audio exceeds 20 MB or 900 s, `whisper_transcribe`
splits it into fixed 600 s chunks and transcribes each independently;
the call succeeds with the per-chunk texts joined in order, where every
successful chunk contributes its transcript and every failed chunk a
placeholder marker in its place. -/
theorem C4_chunked_transcription (sizeBytes : Nat) (d : ℚ) (keep : Nat → Bool)
    (oracle : AudioRef → Except String String)
    (h : 20971520 < sizeBytes ∨ (900 : ℚ) < d) :
    whisper_transcribe true sizeBytes (some d) keep oracle =
      Except.ok (String.intercalate "\n\n"
        (segmentParts oracle (split_audio_into_chunks d keep))) ∧
    (∀ (k : Nat) (c : AudioRef) (t : String),
      (split_audio_into_chunks d keep)[k]? = some c →
      oracle c = Except.ok t →
      (segmentParts oracle (split_audio_into_chunks d keep))[k]? = some t) ∧
    (∀ (k : Nat) (c : AudioRef) (e : String),
      (split_audio_into_chunks d keep)[k]? = some c →
      oracle c = Except.error e →
      (segmentParts oracle (split_audio_into_chunks d keep))[k]? =
        some (failedSegmentMarker (k + 1))) ∧
    ((900 : ℚ) < d → split_audio_into_chunks d keep =
      (List.filter keep (List.range ((pyInt (d / 600)).toNat + 1))).map
        AudioRef.chunk) := by
  refine ⟨?_, ?_, ?_, ?_⟩
  · have hb : (decide (20 * 1024 * 1024 < sizeBytes) || decide ((900 : ℚ) < d)) = true := by
      simp only [Bool.or_eq_true, decide_eq_true_eq]
      rcases h with h | h
      · exact Or.inl (by omega)
      · exact Or.inr h
    simp [whisper_transcribe, hb]
  · exact fun (k : Nat) c t hc ht => segmentParts_get_ok oracle _ k c t hc ht
  · exact fun (k : Nat) c e hc he => segmentParts_get_err oracle _ k c e hc he
  · intro hd900
    have hd0 : (0 : ℚ) < d := by linarith
    have hnotneg : ¬ (d / 600 < 0) :=
      not_lt.mpr (le_of_lt (div_pos hd0 (by norm_num)))
    have hfl : (1 : Int) ≤ ⌊d / 600⌋ := by
      rw [Int.le_floor]
      rw [le_div_iff₀ (by norm_num : (0 : ℚ) < 600)]
      push_cast
      linarith
    have hne : (pyInt (d / 600)).toNat + 1 ≠ 1 := by
      rw [pyInt, if_neg hnotneg]
      omega
    simp only [split_audio_into_chunks]
    rw [if_neg hne]

/-- Witness for C4: a 35 MB, 40-minute audio file is cut into four kept
600 s chunks (the fifth, empty cut is dropped by the size check); chunk
3 of 4 fails and is replaced by its placeholder while chunks 1, 2 and 4
keep their text, and the overall call succeeds. -/
theorem C4_chunked_transcription_witness :
    whisper_transcribe true 36700160 (some 2400) (fun i => decide (i < 4))
      (fun r => match r with
        | AudioRef.chunk 2 => Except.error "Whisper API error 500"
        | AudioRef.chunk i => Except.ok ("segment-" ++ toString i)
        | AudioRef.original => Except.ok "full") =
      Except.ok
        "segment-0\n\nsegment-1\n\n[Transcription failed for segment 3]\n\nsegment-3" := by
  have h := C4_chunked_transcription 36700160 2400 (fun i => decide (i < 4))
    (fun r => match r with
      | AudioRef.chunk 2 => Except.error "Whisper API error 500"
      | AudioRef.chunk i => Except.ok ("segment-" ++ toString i)
      | AudioRef.original => Except.ok "full")
    (Or.inl (by norm_num))
  rw [h.1]
  have hpy : pyInt ((2400 : ℚ) / 600) = 4 := by
    rw [pyInt, if_neg (by norm_num)]
    norm_num
  have hc : split_audio_into_chunks 2400 (fun i => decide (i < 4)) =
      [AudioRef.chunk 0, AudioRef.chunk 1, AudioRef.chunk 2, AudioRef.chunk 3] := by
    simp only [split_audio_into_chunks, hpy]
    rfl
  rw [hc]
  rfl

/-! ### Upsert lemmas for DatasheetSource links -/

/-- The ON CONFLICT update changes no key column. -/
theorem keyOf_update (r : LinkRow) (l : LinkInput) :
    keyOf { r with
      relevanceScore := l.relevanceScore
      mentionCount := l.mentionCount
      mentionSummary := l.mentionSummary } = keyOf r := rfl

/-- `linkMatches` holds exactly on rows with the given key. -/
theorem linkMatches_iff (did sid : String) (r : LinkRow) :
    linkMatches did sid r = true ↔ keyOf r = (did, sid) := by
  simp [linkMatches, keyOf, Prod.ext_iff]

/-- The keys after one upsert: unchanged on conflict, the new key
appended otherwise. -/
theorem upsertLink_keys (sid : String) (db : List LinkRow) (l : LinkInput) :
    (upsertLink sid db l).map keyOf =
      if db.any (linkMatches l.datasheetId sid) then db.map keyOf
      else db.map keyOf ++ [(l.datasheetId, sid)] := by
  unfold upsertLink
  split
  · rw [List.map_map]
    apply List.map_congr_left
    intro r _
    simp only [Function.comp_apply]
    split
    · rfl
    · rfl
  · simp [keyOf]

/-- Each upsert leaves the key of its link present. -/
theorem upsertLink_key_mem (sid : String) (db : List LinkRow) (l : LinkInput) :
    (l.datasheetId, sid) ∈ (upsertLink sid db l).map keyOf := by
  rw [upsertLink_keys]
  split
  · rename_i hany
    obtain ⟨r, hr, hm⟩ := List.any_eq_true.mp hany
    exact List.mem_map.mpr ⟨r, hr, (linkMatches_iff _ _ r).mp hm⟩
  · simp

/-- Upserts never remove keys. -/
theorem upsertLink_keys_mono (sid : String) (db : List LinkRow) (l : LinkInput)
    (k : String × String) (h : k ∈ db.map keyOf) :
    k ∈ (upsertLink sid db l).map keyOf := by
  rw [upsertLink_keys]
  split
  · exact h
  · exact List.mem_append_left _ h

/-- One upsert preserves key uniqueness. -/
theorem upsertLink_nodup (sid : String) (db : List LinkRow) (l : LinkInput)
    (h : (db.map keyOf).Nodup) : ((upsertLink sid db l).map keyOf).Nodup := by
  rw [upsertLink_keys]
  split
  · exact h
  · rename_i hany
    have hnotmem : (l.datasheetId, sid) ∉ db.map keyOf := by
      intro hmem
      obtain ⟨r, hr, hk⟩ := List.mem_map.mp hmem
      have : db.any (linkMatches l.datasheetId sid) = true :=
        List.any_eq_true.mpr ⟨r, hr, (linkMatches_iff _ _ r).mpr hk⟩
      simp [this] at hany
    simp [List.nodup_append, h, hnotmem]

/-- On a key already present, the upsert hits the conflict branch: keys
and row count are unchanged. -/
theorem upsertLink_existing (sid : String) (db : List LinkRow) (l : LinkInput)
    (h : (l.datasheetId, sid) ∈ db.map keyOf) :
    (upsertLink sid db l).map keyOf = db.map keyOf ∧
    (upsertLink sid db l).length = db.length := by
  obtain ⟨r, hr, hk⟩ := List.mem_map.mp h
  have hany : db.any (linkMatches l.datasheetId sid) = true :=
    List.any_eq_true.mpr ⟨r, hr, (linkMatches_iff _ _ r).mpr hk⟩
  constructor
  · rw [upsertLink_keys, if_pos hany]
  · unfold upsertLink
    rw [if_pos hany, List.length_map]

/-- Keys are never removed across a whole batch of upserts. -/
theorem create_keys_mono (sid : String) (links : List LinkInput) :
    ∀ (db : List LinkRow) (k : String × String), k ∈ db.map keyOf →
      k ∈ (db_create_datasheet_links sid links db).map keyOf := by
  induction links with
  | nil => intro db k h; exact h
  | cons l ls ih =>
    intro db k h
    exact ih (upsertLink sid db l) k (upsertLink_keys_mono sid db l k h)

/-- After a batch of upserts, every link's key is present. -/
theorem create_keys_present (sid : String) (links : List LinkInput) :
    ∀ (db : List LinkRow) (l : LinkInput), l ∈ links →
      (l.datasheetId, sid) ∈ (db_create_datasheet_links sid links db).map keyOf := by
  induction links with
  | nil => intro db l h; exact absurd h (List.not_mem_nil l)
  | cons l0 ls ih =>
    intro db l h
    rcases List.mem_cons.mp h with h0 | h1
    · subst h0
      exact create_keys_mono sid ls (upsertLink sid db l) _
        (upsertLink_key_mem sid db l)
    · exact ih (upsertLink sid db l0) l h1

/-- A batch of upserts preserves key uniqueness. -/
theorem create_nodup (sid : String) (links : List LinkInput) :
    ∀ db : List LinkRow, (db.map keyOf).Nodup →
      ((db_create_datasheet_links sid links db).map keyOf).Nodup := by
  induction links with
  | nil => intro db h; exact h
  | cons l ls ih =>
    intro db h
    exact ih (upsertLink sid db l) (upsertLink_nodup sid db l h)

/-- When every batched key is already present, the batch changes neither
the key list nor the row count. -/
theorem create_stable (sid : String) (links : List LinkInput) :
    ∀ db : List LinkRow, (∀ l ∈ links, (l.datasheetId, sid) ∈ db.map keyOf) →
      (db_create_datasheet_links sid links db).map keyOf = db.map keyOf ∧
      (db_create_datasheet_links sid links db).length = db.length := by
  induction links with
  | nil => intro db _; exact ⟨rfl, rfl⟩
  | cons l ls ih =>
    intro db h
    have hl := h l (List.mem_cons_self l ls)
    obtain ⟨hkeys, hlen⟩ := upsertLink_existing sid db l hl
    have hrest : ∀ l2 ∈ ls, (l2.datasheetId, sid) ∈ (upsertLink sid db l).map keyOf := by
      intro l2 h2
      rw [hkeys]
      exact h l2 (List.mem_cons_of_mem l h2)
    obtain ⟨hk2, hl2⟩ := ih (upsertLink sid db l) hrest
    exact ⟨hk2.trans hkeys, hl2.trans hlen⟩

/-- Claim C6: starting from a table with at most one DatasheetSource
row per (datasheet, source) key, a curation batch preserves that
invariant, and re-running the same batch (same source, same links)
updates the existing rows in place — the key set and the row count are
unchanged, no duplicate links appear. -/
theorem C6_link_upsert_idempotent (sid : String) (links : List LinkInput)
    (db : List LinkRow) (h : (db.map keyOf).Nodup) :
    ((db_create_datasheet_links sid links db).map keyOf).Nodup ∧
    (db_create_datasheet_links sid links
        (db_create_datasheet_links sid links db)).map keyOf =
      (db_create_datasheet_links sid links db).map keyOf ∧
    (db_create_datasheet_links sid links
        (db_create_datasheet_links sid links db)).length =
      (db_create_datasheet_links sid links db).length := by
  refine ⟨create_nodup sid links db h, ?_, ?_⟩
  · exact (create_stable sid links _ (fun l hl => create_keys_present sid links db l hl)).1
  · exact (create_stable sid links _ (fun l hl => create_keys_present sid links db l hl)).2

/-- Witness for C6: re-running a two-link curation batch on an empty
table keeps the key set and row count of the first run. -/
theorem C6_link_upsert_idempotent_witness :
    ((db_create_datasheet_links "s1" [⟨"d1", 1, 2, "x"⟩, ⟨"d2", 1, 3, "y"⟩] []).map
        keyOf).Nodup ∧
    (db_create_datasheet_links "s1" [⟨"d1", 1, 2, "x"⟩, ⟨"d2", 1, 3, "y"⟩]
        (db_create_datasheet_links "s1" [⟨"d1", 1, 2, "x"⟩, ⟨"d2", 1, 3, "y"⟩] [])).map
        keyOf =
      (db_create_datasheet_links "s1" [⟨"d1", 1, 2, "x"⟩, ⟨"d2", 1, 3, "y"⟩] []).map
        keyOf ∧
    (db_create_datasheet_links "s1" [⟨"d1", 1, 2, "x"⟩, ⟨"d2", 1, 3, "y"⟩]
        (db_create_datasheet_links "s1" [⟨"d1", 1, 2, "x"⟩, ⟨"d2", 1, 3, "y"⟩] [])).length =
      (db_create_datasheet_links "s1" [⟨"d1", 1, 2, "x"⟩, ⟨"d2", 1, 3, "y"⟩] []).length :=
  C6_link_upsert_idempotent "s1" [⟨"d1", 1, 2, "x"⟩, ⟨"d2", 1, 3, "y"⟩] [] (by simp)

end GrimLog
